import Mathlib

/-!
Shallow embedding of the vvp logic-functor kernel (src/vvp/logic.cc):
the 4-state bit domain, signal vectors, the truth-table functor, the
explicit boolean AND gate, buffers, the real and vector multiplexers,
and the `compile_functor` construction entry point.  Receive operations
are modelled as pure state transformers that also report their visible
effects: the vectors/reals sent synchronously, the delays of scheduler
events enqueued, and whether an assertion aborted the process.
-/

/-- The 4-state bit domain.  The enumeration order 0/1/x/z fixes the
numeric codes 0,1,2,3 (logic.cc's table comment relies on exactly this
encoding of the `vvp_bit4_t` enumeration). -/
inductive vvp_bit4_t where
  | BIT4_0
  | BIT4_1
  | BIT4_X
  | BIT4_Z
deriving DecidableEq, Repr

open vvp_bit4_t

/-- Numeric code of a bit: its position in the `vvp_bit4_t` enumeration. -/
def vvp_bit4_t.code : vvp_bit4_t → Nat
  | BIT4_0 => 0
  | BIT4_1 => 1
  | BIT4_X => 2
  | BIT4_Z => 3

/-- The cast `(vvp_bit4_t)bit_val` applied to a value already masked to 2 bits. -/
def bit4FromCode : Nat → vvp_bit4_t
  | 0 => BIT4_0
  | 1 => BIT4_1
  | 2 => BIT4_X
  | _ => BIT4_Z

/-- Modelled from the spec: the 4-state AND used by the explicit boolean
gate ("bitwise AND with 0 dominant over unknown"); `operator&` on
`vvp_bit4_t` lives outside the excerpt.  0 with anything is 0, 1 with 1
is 1, every other combination is unknown. -/
def bit4_and : vvp_bit4_t → vvp_bit4_t → vvp_bit4_t
  | BIT4_0, _ => BIT4_0
  | _, BIT4_0 => BIT4_0
  | BIT4_1, BIT4_1 => BIT4_1
  | _, _ => BIT4_X

/-- A 4-state signal vector (`vvp_vector4_t`): an ordered, fixed-length
sequence of bits, index 0 first. -/
structure vvp_vector4_t where
  bits : List vvp_bit4_t
deriving DecidableEq, Repr

def vvp_vector4_t.size (v : vvp_vector4_t) : Nat := v.bits.length

/-- Modelled from the spec: the get(index) accessor (`vvp_vector4_t::value`,
outside the excerpt) is bounds-guarded; a read at or beyond the width
yields unknown, consistently with the all-unknown default fill. -/
def vvp_vector4_t.value (v : vvp_vector4_t) (idx : Nat) : vvp_bit4_t :=
  v.bits.getD idx BIT4_X

/-- Structural equality `eeq`: same width, same bits. -/
def vvp_vector4_t.eeq (a b : vvp_vector4_t) : Bool := a.bits == b.bits

/-- The transform `change_z2x`: every floating bit becomes unknown. -/
def vvp_vector4_t.change_z2x (v : vvp_vector4_t) : vvp_vector4_t :=
  ⟨v.bits.map (fun b => if b = BIT4_Z then BIT4_X else b)⟩

/-- Modelled from the spec: construct(width) with the default all-unknown fill. -/
def vvp_vector4_t.mk_width (wid : Nat) : vvp_vector4_t :=
  ⟨List.replicate wid BIT4_X⟩

/-- Read one of the four latched input slots; a slot that was never
latched holds the empty (width-0) vector. -/
def portInput (inputs : List vvp_vector4_t) (p : Nat) : vvp_vector4_t :=
  inputs.getD p ⟨[]⟩

/-! ## The truth-table functor (`table_functor_s`) -/

/-- State of a `table_functor_s`: the shared truth table (a byte array,
four 2-bit entries per byte) and the four latched input vectors. -/
structure table_functor_s where
  table : Nat → Nat
  input_ : List vvp_vector4_t

/-- One port's 2-bit contribution to the lookup index at bit position
`idx`: the bit's enumeration code when the latched vector reaches that
position, and 0 otherwise (the OR into the index is skipped, leaving
those two index bits clear). -/
def tableContrib (inputs : List vvp_vector4_t) (p idx : Nat) : Nat :=
  let v := portInput inputs p
  if idx < v.size then (v.value idx).code else 0

/-- The packed lookup index at bit position `idx`: the inner loop runs
ports 4 down to 1, shifting by two and OR-ing each contribution, so port
0 lands in the low two bits. -/
def tableLookup (inputs : List vvp_vector4_t) (idx : Nat) : Nat :=
  ((tableContrib inputs 3 idx * 4 + tableContrib inputs 2 idx) * 4
      + tableContrib inputs 1 idx) * 4
    + tableContrib inputs 0 idx

/-- Extract the 2-bit table entry for a lookup index: byte `lookup / 4`,
shifted down by `lookup % 4 * 2` and masked to two bits. -/
def tableResultBit (table : Nat → Nat) (lookup : Nat) : vvp_bit4_t :=
  let off := lookup / 4
  let shift := lookup % 4 * 2
  bit4FromCode (table off >>> shift &&& 3)

/-- Visible outcome of `table_functor_s::recv_vec4`. -/
structure TableRecvResult where
  state : table_functor_s
  sentVec4 : List vvp_vector4_t
  scheduled : List Nat

/-- The receive `table_functor_s::recv_vec4`: latch the value at the addressed port,
build a result of the received value's width by table lookup at every
bit position, and send it at once (nothing is scheduled). -/
def table_functor_s.recv_vec4 (s : table_functor_s) (port : Nat)
    (val : vvp_vector4_t) : TableRecvResult :=
  let inputs := s.input_.set port val
  let result : vvp_vector4_t :=
    ⟨(List.range val.size).map
      (fun idx => tableResultBit s.table (tableLookup inputs idx))⟩
  { state := { s with input_ := inputs }, sentVec4 := [result], scheduled := [] }

/-- Follows the spec's words, for comparison with `tableContrib`: a port
whose latched vector is absent or narrower than the position is said to
contribute unknown (code 2). -/
def tableContribSpec (inputs : List vvp_vector4_t) (p idx : Nat) : Nat :=
  let v := portInput inputs p
  if idx < v.size then (v.value idx).code else BIT4_X.code

/-- Follows the spec's words, for comparison with `tableLookup`. -/
def tableLookupSpec (inputs : List vvp_vector4_t) (idx : Nat) : Nat :=
  ((tableContribSpec inputs 3 idx * 4 + tableContribSpec inputs 2 idx) * 4
      + tableContribSpec inputs 1 idx) * 4
    + tableContribSpec inputs 0 idx

/-! ## Helper lemmas on vectors built positionally -/

theorem value_map_range (f : Nat → vvp_bit4_t) (n idx : Nat) (h : idx < n) :
    (vvp_vector4_t.mk ((List.range n).map f)).value idx = f idx := by
  simp [vvp_vector4_t.value, List.getD_eq_getElem?_getD, List.getElem?_map,
    List.getElem?_range h]

theorem size_map_range (f : Nat → vvp_bit4_t) (n : Nat) :
    (vvp_vector4_t.mk ((List.range n).map f)).size = n := by
  simp [vvp_vector4_t.size]

/-! ## The explicit boolean AND gate (`vvp_fun_boolean_` / `vvp_fun_and`) -/

/-- State of the explicit AND gate: the four latched input vectors
(`vvp_fun_boolean_::input_`). -/
structure vvp_fun_and where
  input_ : List vvp_vector4_t
deriving DecidableEq, Repr

/-- The `vvp_fun_and(wid)` constructor: every input slot starts as a
width-`wid` vector (default all-unknown fill). -/
def vvp_fun_and.init (wid : Nat) : vvp_fun_and :=
  ⟨List.replicate 4 (vvp_vector4_t.mk_width wid)⟩

/-- Visible outcome of `vvp_fun_boolean_::recv_vec4`: the new state,
any vectors sent synchronously (always none), and the delays of the
scheduler events enqueued. -/
structure BoolRecvResult where
  state : vvp_fun_and
  sentVec4 : List vvp_vector4_t
  scheduled : List Nat
deriving Repr

/-- The receive `vvp_fun_boolean_::recv_vec4` (inherited by the AND gate): a value
structurally equal to the port's latch is dropped; otherwise the value
is latched and a zero-delay generic event is scheduled.  Nothing is
ever sent within the receive itself. -/
def vvp_fun_and.recv_vec4 (s : vvp_fun_and) (port : Nat)
    (bit : vvp_vector4_t) : BoolRecvResult :=
  if (portInput s.input_ port).eeq bit then
    { state := s, sentVec4 := [], scheduled := [] }
  else
    { state := ⟨s.input_.set port bit⟩, sentVec4 := [], scheduled := [0] }

/-- One iteration of the inner loop of `vvp_fun_and::run_run` for port
`pdx ≥ 1`: a vector strictly narrower than the bit index forces the
unknown result and breaks out (`none`); otherwise the accumulator is
AND-ed with the port's bit at that index. -/
def andStep (v : vvp_vector4_t) (idx : Nat) (bitbit : vvp_bit4_t) :
    Option vvp_bit4_t :=
  if v.size < idx then none else some (bit4_and bitbit (v.value idx))

/-- The bit `vvp_fun_and::run_run` computes at position `idx`: start
from input 0's bit and run `andStep` for ports 1, 2, 3 with the break
on a too-narrow port. -/
def vvp_fun_and.bitAt (s : vvp_fun_and) (idx : Nat) : vvp_bit4_t :=
  match andStep (portInput s.input_ 1) idx ((portInput s.input_ 0).value idx) with
  | none => BIT4_X
  | some b1 =>
    match andStep (portInput s.input_ 2) idx b1 with
    | none => BIT4_X
    | some b2 =>
      match andStep (portInput s.input_ 3) idx b2 with
      | none => BIT4_X
      | some b3 => b3

/-- The evaluation `vvp_fun_and::run_run`: the vector sent when the scheduled event
fires.  The result starts as a copy of input 0, so it has input 0's
width, and every position is recomputed by `bitAt`. -/
def vvp_fun_and.run_run (s : vvp_fun_and) : vvp_vector4_t :=
  ⟨(List.range (portInput s.input_ 0).size).map (fun idx => s.bitAt idx)⟩

/-! ## Buffers (`vvp_fun_buf`, `vvp_fun_bufz`) -/

/-- Visible outcome of a buffer receive (buffers hold no state). -/
structure BufRecvResult where
  sentVec4 : List vvp_vector4_t
  sentReal : List ℚ
  aborted : Bool
deriving DecidableEq, Repr

/-- The receive `vvp_fun_buf::recv_vec4`: a port other than 0 is silently ignored;
otherwise the vector is sent with floating bits turned to unknown. -/
def vvp_fun_buf.recv_vec4 (port : Nat) (bit : vvp_vector4_t) : BufRecvResult :=
  if port ≠ 0 then { sentVec4 := [], sentReal := [], aborted := false }
  else { sentVec4 := [bit.change_z2x], sentReal := [], aborted := false }

/-- The receive `vvp_fun_bufz::recv_vec4`: a port other than 0 is silently ignored;
otherwise the vector is sent unchanged, floating bits preserved. -/
def vvp_fun_bufz.recv_vec4 (port : Nat) (bit : vvp_vector4_t) : BufRecvResult :=
  if port ≠ 0 then { sentVec4 := [], sentReal := [], aborted := false }
  else { sentVec4 := [bit], sentReal := [], aborted := false }

/-- The receive `vvp_fun_bufz::recv_real`: a port other than 0 is silently ignored;
otherwise the real value is forwarded unchanged. -/
def vvp_fun_bufz.recv_real (port : Nat) (bit : ℚ) : BufRecvResult :=
  if port ≠ 0 then { sentVec4 := [], sentReal := [], aborted := false }
  else { sentVec4 := [], sentReal := [bit], aborted := false }

/-! ## The real multiplexer (`vvp_fun_muxr`) -/

/-- State of the real multiplexer: the two latched real data values and
the latched select (0, 1, or 2 for unknown).  The data values carry
only equality and copying here, so they are modelled as rationals. -/
structure vvp_fun_muxr where
  a_ : ℚ
  b_ : ℚ
  select_ : Nat
deriving DecidableEq, Repr

/-- Visible outcome of a `vvp_fun_muxr` receive. -/
structure MuxrRecvResult where
  state : vvp_fun_muxr
  sentReal : List ℚ
  aborted : Bool
deriving DecidableEq, Repr

/-- The receive `vvp_fun_muxr::recv_vec4`: only port 2 (the select) accepts a
vector; other ports are silently ignored.  The select must be exactly
one bit wide (assertion), is latched as 0/1/2, and the output is
recomputed and sent at once: A for 0, B for 1, and for unknown A when
A equals B, else 0.0. -/
def vvp_fun_muxr.recv_vec4 (s : vvp_fun_muxr) (port : Nat)
    (bit : vvp_vector4_t) : MuxrRecvResult :=
  if port ≠ 2 then { state := s, sentReal := [], aborted := false }
  else if bit.size ≠ 1 then { state := s, sentReal := [], aborted := true }
  else
    let sel : Nat :=
      match bit.value 0 with
      | BIT4_0 => 0
      | BIT4_1 => 1
      | _ => 2
    let t := { s with select_ := sel }
    match sel with
    | 0 => { state := t, sentReal := [t.a_], aborted := false }
    | 1 => { state := t, sentReal := [t.b_], aborted := false }
    | _ =>
      if t.a_ = t.b_ then { state := t, sentReal := [t.a_], aborted := false }
      else { state := t, sentReal := [0], aborted := false }

/-- The receive `vvp_fun_muxr::recv_real`: an unchanged data value is dropped; a
changed one is latched but sent only when the select currently points
at that port.  Any port other than 0 or 1 hits `assert(0)`. -/
def vvp_fun_muxr.recv_real (s : vvp_fun_muxr) (port : Nat) (bit : ℚ) :
    MuxrRecvResult :=
  match port with
  | 0 =>
    if s.a_ = bit then { state := s, sentReal := [], aborted := false }
    else
      let t := { s with a_ := bit }
      if t.select_ = 0 then { state := t, sentReal := [t.a_], aborted := false }
      else { state := t, sentReal := [], aborted := false }
  | 1 =>
    if s.b_ = bit then { state := s, sentReal := [], aborted := false }
    else
      let t := { s with b_ := bit }
      if t.select_ = 1 then { state := t, sentReal := [t.b_], aborted := false }
      else { state := t, sentReal := [], aborted := false }
  | _ => { state := s, sentReal := [], aborted := true }

/-! ## The vector multiplexer (`vvp_fun_muxz`) -/

/-- State of the vector multiplexer: latched data vectors A and B and
the latched select (0, 1, or 2 for unknown). -/
structure vvp_fun_muxz where
  a_ : vvp_vector4_t
  b_ : vvp_vector4_t
  select_ : Nat
deriving DecidableEq, Repr

/-- The unknown-select reconciliation of `vvp_fun_muxz::recv_vec4`:
the result spans the longer of A and B; where both are present it is
A's bit when A and B agree and unknown otherwise, and every position
past the shorter vector is unknown. -/
def muxz_blend (a b : vvp_vector4_t) : vvp_vector4_t :=
  let min_size := if b.size < a.size then b.size else a.size
  let max_size := if a.size < b.size then b.size else a.size
  ⟨(List.range max_size).map (fun idx =>
    if idx < min_size then
      (if a.value idx = b.value idx then a.value idx else BIT4_X)
    else BIT4_X)⟩

/-- Visible outcome of `vvp_fun_muxz::recv_vec4`. -/
structure MuxzRecvResult where
  state : vvp_fun_muxz
  sentVec4 : List vvp_vector4_t
  aborted : Bool
deriving DecidableEq, Repr

/-- The output switch at the end of `vvp_fun_muxz::recv_vec4`: send A
for select 0, B for select 1, and the blend otherwise. -/
def muxzSend (s : vvp_fun_muxz) : MuxzRecvResult :=
  match s.select_ with
  | 0 => { state := s, sentVec4 := [s.a_], aborted := false }
  | 1 => { state := s, sentVec4 := [s.b_], aborted := false }
  | _ => { state := s, sentVec4 := [muxz_blend s.a_ s.b_], aborted := false }

/-- The receive `vvp_fun_muxz::recv_vec4`: ports 0 and 1 latch the data vectors,
port 2 latches the select (asserting it is exactly one bit wide), and
in each of these cases the output is recomputed and sent at once; any
other port returns before the output switch, silently ignored. -/
def vvp_fun_muxz.recv_vec4 (s : vvp_fun_muxz) (port : Nat)
    (bit : vvp_vector4_t) : MuxzRecvResult :=
  match port with
  | 0 => muxzSend { s with a_ := bit }
  | 1 => muxzSend { s with b_ := bit }
  | 2 =>
    if bit.size ≠ 1 then { state := s, sentVec4 := [], aborted := true }
    else
      let sel : Nat :=
        match bit.value 0 with
        | BIT4_0 => 0
        | BIT4_1 => 1
        | _ => 2
      muxzSend { s with select_ := sel }
  | _ => { state := s, sentVec4 := [], aborted := false }

/-! ## The construction entry point (`compile_functor`) -/

/-- The closed set of gate-type tags the `strcmp` chain accepts. -/
def logic_types : List String :=
  ["OR", "AND", "BUF", "BUFIF0", "BUFIF1", "NOTIF0", "NOTIF1", "BUFZ",
   "MUXR", "MUXX", "MUXZ", "NMOS", "PMOS", "RNMOS", "RPMOS", "EEQ",
   "NAND", "NOR", "NOT", "XNOR", "XOR"]

/-- The tags whose branch sets `strength_aware = true` (the bufif/notif
family handles drive strength internally). -/
def strength_aware_type (type : String) : Bool :=
  type == "BUFIF0" || type == "BUFIF1" || type == "NOTIF0" || type == "NOTIF1"

/-- How one `compile_functor` call ends: a reported per-element error
(the call returns and the loader continues), a failed assertion that
terminates the process, or a successful build with the label attached
directly to the gate's net, to an inserted delay wrapper's net, or to
an inserted drive-strength wrapper's net. -/
inductive CompileOutcome where
  | elementError
  | processAbort
  | attachedDirect
  | delayWrapper
  | driveWrapper
deriving DecidableEq, Repr

/-- The builder `compile_functor`: an unknown tag is reported with `yyerror` and the
call returns; then `assert(argc <= 4)`; then, when the gate is strength
aware or both strengths are the default 6 with no delay, the label is
attached directly to the gate's net; otherwise a single wrapper node is
inserted ahead of the gate — a delay wrapper when both strengths are
default and a delay is present, else a drive-strength wrapper (any
delay is discarded in that case) — and the label is attached to it. -/
def compile_functor (type : String) (delay : Option Nat)
    (ostr0 ostr1 : Nat) (argc : Nat) : CompileOutcome :=
  if type ∉ logic_types then .elementError
  else if 4 < argc then .processAbort
  else if strength_aware_type type
      || (ostr0 == 6 && ostr1 == 6 && delay == none) then .attachedDirect
  else if ostr0 == 6 && ostr1 == 6 && delay != none then .delayWrapper
  else .driveWrapper

/-! ## Lemmas about the MUXZ blend -/

theorem muxz_blend_size (a b : vvp_vector4_t) :
    (muxz_blend a b).size = max a.size b.size := by
  simp only [muxz_blend, size_map_range]
  split <;> omega

theorem muxz_blend_agree (a b : vvp_vector4_t) (idx : Nat)
    (h : idx < min a.size b.size) :
    (muxz_blend a b).value idx =
      if a.value idx = b.value idx then a.value idx else BIT4_X := by
  have hmax : idx < (if a.size < b.size then b.size else a.size) := by
    split <;> omega
  have hmin : idx < (if b.size < a.size then b.size else a.size) := by
    split <;> omega
  simp only [muxz_blend]
  rw [value_map_range _ _ _ hmax, if_pos hmin]

theorem muxz_blend_pad (a b : vvp_vector4_t) (idx : Nat)
    (h1 : min a.size b.size ≤ idx) (h2 : idx < max a.size b.size) :
    (muxz_blend a b).value idx = BIT4_X := by
  have hmax : idx < (if a.size < b.size then b.size else a.size) := by
    split <;> omega
  have hmin : ¬ idx < (if b.size < a.size then b.size else a.size) := by
    split <;> omega
  simp only [muxz_blend]
  rw [value_map_range _ _ _ hmax, if_neg hmin]

/-- C1: for a MUXZ receive on a real port (0, 1 or 2, with a one-bit
select on port 2) nothing aborts, and the vector sent is: the latched
data-A vector when the latched select is 0, the latched data-B vector
when it is 1, and otherwise the reconciliation of A and B — which has
the length of the longer of the two, agrees with A at every position
where A and B agree, is unknown where they differ, and is unknown at
every position past the shorter vector. -/
theorem muxz_recv_select_semantics (s : vvp_fun_muxz) (port : Nat)
    (bit : vvp_vector4_t) (hport : port < 3)
    (hsel : port = 2 → bit.size = 1) :
    ((vvp_fun_muxz.recv_vec4 s port bit).aborted = false ∧
     ((vvp_fun_muxz.recv_vec4 s port bit).state.select_ = 0 →
        (vvp_fun_muxz.recv_vec4 s port bit).sentVec4
          = [(vvp_fun_muxz.recv_vec4 s port bit).state.a_]) ∧
     ((vvp_fun_muxz.recv_vec4 s port bit).state.select_ = 1 →
        (vvp_fun_muxz.recv_vec4 s port bit).sentVec4
          = [(vvp_fun_muxz.recv_vec4 s port bit).state.b_]) ∧
     ((vvp_fun_muxz.recv_vec4 s port bit).state.select_ ≠ 0 →
      (vvp_fun_muxz.recv_vec4 s port bit).state.select_ ≠ 1 →
        (vvp_fun_muxz.recv_vec4 s port bit).sentVec4
          = [muxz_blend (vvp_fun_muxz.recv_vec4 s port bit).state.a_
               (vvp_fun_muxz.recv_vec4 s port bit).state.b_])) ∧
    ∀ a b : vvp_vector4_t,
      (muxz_blend a b).size = max a.size b.size ∧
      (∀ idx, idx < min a.size b.size →
         (muxz_blend a b).value idx =
           if a.value idx = b.value idx then a.value idx else BIT4_X) ∧
      (∀ idx, min a.size b.size ≤ idx → idx < max a.size b.size →
         (muxz_blend a b).value idx = BIT4_X) := by
  constructor
  · interval_cases port
    · rcases s with ⟨a, b, sel⟩
      rcases sel with _ | _ | n <;>
        simp [vvp_fun_muxz.recv_vec4, muxzSend]
    · rcases s with ⟨a, b, sel⟩
      rcases sel with _ | _ | n <;>
        simp [vvp_fun_muxz.recv_vec4, muxzSend]
    · have hb : bit.size = 1 := hsel rfl
      rcases s with ⟨a, b, sel⟩
      cases hv : bit.value 0 <;>
        simp [vvp_fun_muxz.recv_vec4, muxzSend, hb, hv]
  · intro a b
    exact ⟨muxz_blend_size a b, fun idx h => muxz_blend_agree a b idx h,
      fun idx h1 h2 => muxz_blend_pad a b idx h1 h2⟩

/-- The MUXZ state of the spec's Scenario C: A latched as [1,0,1], B as
[1,1,1], select latched unknown. -/
def muxzScenarioC : vvp_fun_muxz :=
  ⟨⟨[BIT4_1, BIT4_0, BIT4_1]⟩, ⟨[BIT4_1, BIT4_1, BIT4_1]⟩, 2⟩

theorem muxz_recv_select_semantics_scenario :
    (2 : Nat) < 3 ∧
      (vvp_fun_muxz.recv_vec4 muxzScenarioC 2 ⟨[BIT4_X]⟩).sentVec4
        = [⟨[BIT4_1, BIT4_X, BIT4_1]⟩] := by
  constructor
  · decide
  · have h := (muxz_recv_select_semantics muxzScenarioC 2 ⟨[BIT4_X]⟩
      (by decide) (fun _ => rfl)).1.2.2.2 (by decide) (by decide)
    rw [h]
    decide

/-! ## C2: the explicit AND gate's per-bit evaluation -/

/-- C2 (amended): at every bit position of the result, the inner loop
first checks widths: if any of input ports 1-3 is strictly narrower
than the bit index the result bit is unknown regardless of every other
input (the loop breaks, discarding even a 0 already accumulated);
otherwise the bit is the 4-state AND of the four inputs' bits there
(reads at a vector's exact width giving unknown): 0 if any input holds
0, 1 if all hold 1, unknown otherwise. -/
theorem and_run_run_bit (s : vvp_fun_and) (idx : Nat)
    (h : idx < (portInput s.input_ 0).size) :
    s.run_run.value idx =
      if (portInput s.input_ 1).size < idx ∨ (portInput s.input_ 2).size < idx ∨
          (portInput s.input_ 3).size < idx then BIT4_X
      else if (portInput s.input_ 0).value idx = BIT4_0 ∨
          (portInput s.input_ 1).value idx = BIT4_0 ∨
          (portInput s.input_ 2).value idx = BIT4_0 ∨
          (portInput s.input_ 3).value idx = BIT4_0 then BIT4_0
      else if (portInput s.input_ 0).value idx = BIT4_1 ∧
          (portInput s.input_ 1).value idx = BIT4_1 ∧
          (portInput s.input_ 2).value idx = BIT4_1 ∧
          (portInput s.input_ 3).value idx = BIT4_1 then BIT4_1
      else BIT4_X := by
  unfold vvp_fun_and.run_run
  rw [value_map_range _ _ _ h]
  unfold vvp_fun_and.bitAt andStep
  by_cases h1 : (portInput s.input_ 1).size < idx
  · simp [h1]
  by_cases h2 : (portInput s.input_ 2).size < idx
  · simp [h1, h2]
  by_cases h3 : (portInput s.input_ 3).size < idx
  · simp [h1, h2, h3]
  simp only [h1, h2, h3, if_neg, false_or, or_false, if_false]
  generalize (portInput s.input_ 0).value idx = b0
  generalize (portInput s.input_ 1).value idx = b1
  generalize (portInput s.input_ 2).value idx = b2
  generalize (portInput s.input_ 3).value idx = b3
  cases b0 <;> cases b1 <;> cases b2 <;> cases b3 <;> decide

/-- The AND state falsifying C1's claimed 0-dominance: input 0 holds 0
at position 1, but input 1 is narrower than position 1. -/
def andNarrowCx : vvp_fun_and :=
  ⟨[⟨[BIT4_0, BIT4_0]⟩, ⟨[]⟩, ⟨[BIT4_1, BIT4_1]⟩, ⟨[BIT4_1, BIT4_1]⟩]⟩

/-- C2 counterexample: input 0 holds 0 at bit 1, yet the recomputed bit
is unknown, because input 1 is narrower than the index and the loop
breaks with unknown before the 0 can dominate. -/
theorem and_zero_not_dominant_cx :
    (portInput andNarrowCx.input_ 0).value 1 = BIT4_0 ∧
      andNarrowCx.run_run.value 1 = BIT4_X := by decide

/-- The spec's Scenario A state: a width-1 AND gate whose latched
inputs hold 1 and unknown (the unused ports latched at 1). -/
def andScenarioA : vvp_fun_and :=
  ⟨[⟨[BIT4_1]⟩, ⟨[BIT4_X]⟩, ⟨[BIT4_1]⟩, ⟨[BIT4_1]⟩]⟩

theorem and_run_run_bit_scenario :
    andScenarioA.run_run.value 0 = BIT4_X := by
  have h := and_run_run_bit andScenarioA 0 (by decide)
  rw [h]
  decide

/-! ## C3: the truth-table functor's receive -/

theorem tableContrib_lt_four (inputs : List vvp_vector4_t) (p idx : Nat) :
    tableContrib inputs p idx < 4 := by
  unfold tableContrib
  dsimp only
  split
  · cases (portInput inputs p).value idx <;> decide
  · decide

theorem tableLookup_lt_256 (inputs : List vvp_vector4_t) (idx : Nat) :
    tableLookup inputs idx < 256 := by
  have h0 := tableContrib_lt_four inputs 0 idx
  have h1 := tableContrib_lt_four inputs 1 idx
  have h2 := tableContrib_lt_four inputs 2 idx
  have h3 := tableContrib_lt_four inputs 3 idx
  unfold tableLookup
  omega

/-- C3 (amended): a truth-table receive schedules nothing and sends,
within the same call, exactly one vector of the received value's width
whose bit at each position is the 2-bit table entry at the packed index
of the four ports' contributions there — an index always below 256 —
where a port whose latched vector is absent or narrower than the
position contributes the code of logic 0 (not of unknown). -/
theorem table_recv_semantics (s : table_functor_s) (port : Nat)
    (val : vvp_vector4_t) :
    ((s.recv_vec4 port val).scheduled = [] ∧
     ∃ res, (s.recv_vec4 port val).sentVec4 = [res] ∧
       res.size = val.size ∧
       ∀ idx, idx < val.size →
         res.value idx
           = tableResultBit s.table (tableLookup (s.input_.set port val) idx) ∧
         tableLookup (s.input_.set port val) idx < 256) ∧
    ∀ (inputs : List vvp_vector4_t) (p idx : Nat),
      (portInput inputs p).size ≤ idx →
        tableContrib inputs p idx = vvp_bit4_t.code BIT4_0 := by
  refine ⟨⟨rfl, ⟨_, rfl, size_map_range _ _, fun idx hidx => ?_⟩⟩,
    fun inputs p idx hle => ?_⟩
  · exact ⟨value_map_range _ _ _ hidx,
      tableLookup_lt_256 (s.input_.set port val) idx⟩
  · unfold tableContrib
    dsimp only
    rw [if_neg (by omega)]
    rfl

theorem table_recv_semantics_scenario :
    ((portInput [⟨[BIT4_1]⟩] 2).size ≤ 0 ∧
      tableContrib [⟨[BIT4_1]⟩] 2 0 = vvp_bit4_t.code BIT4_0) ∧
      ((table_functor_s.mk (fun _ => 9) [⟨[]⟩, ⟨[]⟩, ⟨[]⟩, ⟨[]⟩]).recv_vec4
        0 ⟨[BIT4_0]⟩).scheduled = [] := by
  have h := table_recv_semantics
    (table_functor_s.mk (fun _ => 9) [⟨[]⟩, ⟨[]⟩, ⟨[]⟩, ⟨[]⟩]) 0 ⟨[BIT4_0]⟩
  exact ⟨⟨by decide, h.2 [⟨[BIT4_1]⟩] 2 0 (by decide)⟩, h.1.1⟩

/-- The table falsifying the spec's packing claim: entry 0 (byte 0,
low bits) holds code 1, entry 168 (byte 42, low bits) holds code 2. -/
def tableCxTable : Nat → Nat :=
  fun off => if off = 0 then 1 else if off = 42 then 2 else 0

/-- A table functor with all four input slots still absent. -/
def tableCxState : table_functor_s :=
  ⟨tableCxTable, [⟨[]⟩, ⟨[]⟩, ⟨[]⟩, ⟨[]⟩]⟩

/-- C3 counterexample: receiving the one-bit vector 0 on port 0 with
every other port absent sends the entry at index 0 — absent ports
contribute the code 0 — namely the bit 1; had absent ports contributed
unknown as claimed, the index would be 168 and the sent bit the
unknown stored there. -/
theorem table_absent_contributes_zero_cx :
    (tableCxState.recv_vec4 0 ⟨[BIT4_0]⟩).sentVec4 = [⟨[BIT4_1]⟩] ∧
      tableLookup (tableCxState.input_.set 0 ⟨[BIT4_0]⟩) 0 = 0 ∧
      tableLookupSpec (tableCxState.input_.set 0 ⟨[BIT4_0]⟩) 0 = 168 ∧
      tableResultBit tableCxTable 168 = BIT4_X := by decide

/-! ## C4 and C8: the construction entry point -/

/-- C4 (amended): for a known tag within the input-count assertion, a
strength-aware gate (BUFIF0/1, NOTIF0/1) always gets its label attached
directly to its own net, whatever the strengths or delay; for every
other gate the label is attached directly exactly when both strengths
are the default 6 and no delay is given, a delay wrapper is inserted
(and the label attached to it) when both strengths are default and a
delay is given, and a drive-strength wrapper is inserted whenever
either strength is non-default — discarding any delay. -/
theorem compile_functor_wrapper (type : String) (delay : Option Nat)
    (ostr0 ostr1 argc : Nat) (htype : type ∈ logic_types)
    (hargc : argc ≤ 4) :
    (strength_aware_type type = true →
       compile_functor type delay ostr0 ostr1 argc
         = CompileOutcome.attachedDirect) ∧
    (strength_aware_type type = false →
       (ostr0 = 6 → ostr1 = 6 → delay = none →
          compile_functor type delay ostr0 ostr1 argc
            = CompileOutcome.attachedDirect) ∧
       (ostr0 = 6 → ostr1 = 6 → delay ≠ none →
          compile_functor type delay ostr0 ostr1 argc
            = CompileOutcome.delayWrapper) ∧
       ((ostr0 ≠ 6 ∨ ostr1 ≠ 6) →
          compile_functor type delay ostr0 ostr1 argc
            = CompileOutcome.driveWrapper)) := by
  have h4 : ¬ 4 < argc := by omega
  refine ⟨fun hsa => ?_, fun hsa => ⟨fun e0 e1 ed => ?_, fun e0 e1 ed => ?_,
    fun hstr => ?_⟩⟩
  · simp [compile_functor, htype, h4, hsa]
  · subst e0; subst e1; subst ed
    simp [compile_functor, htype, h4, hsa]
  · subst e0; subst e1
    rcases delay with _ | d
    · exact absurd rfl ed
    · simp [compile_functor, htype, h4, hsa]
  · have hb : (ostr0 == 6 && ostr1 == 6) = false := by
      rcases hstr with h | h <;> simp [h]
    simp [compile_functor, htype, h4, hsa, hb]

theorem compile_functor_wrapper_scenario :
    ("AND" ∈ logic_types) ∧
      compile_functor ("AND") none 5 6 2 = CompileOutcome.driveWrapper := by
  refine ⟨by decide, ?_⟩
  exact ((compile_functor_wrapper "AND" none 5 6 2 (by decide)
    (by omega)).2 rfl).2.2 (Or.inl (by omega))

/-- C4 counterexample: a BUFIF1 built with the non-default strength
pair 5/5 still has its label attached directly to the gate's own net;
no drive-strength or delay wrapper is inserted. -/
theorem compile_functor_strength_aware_cx :
    compile_functor "BUFIF1" none 5 5 1 = CompileOutcome.attachedDirect ∧
      CompileOutcome.attachedDirect ≠ CompileOutcome.driveWrapper ∧
      CompileOutcome.attachedDirect ≠ CompileOutcome.delayWrapper := by
  decide

/-- C8 (amended): an unknown gate-type tag is reported and aborts only
the element being built — the call returns with a per-element error;
but a known tag with more than 4 input references fails the
`assert(argc <= 4)` and terminates the whole process. -/
theorem compile_functor_errors (type : String) (delay : Option Nat)
    (ostr0 ostr1 argc : Nat) :
    (type ∉ logic_types →
       compile_functor type delay ostr0 ostr1 argc
         = CompileOutcome.elementError) ∧
    (type ∈ logic_types → 4 < argc →
       compile_functor type delay ostr0 ostr1 argc
         = CompileOutcome.processAbort) := by
  constructor
  · intro h
    simp [compile_functor, h]
  · intro h hc
    simp [compile_functor, h, hc]

theorem compile_functor_errors_scenario :
    ("XYZZY" ∉ logic_types) ∧
      compile_functor ("XYZZY") none 6 6 0 = CompileOutcome.elementError ∧
      compile_functor ("OR") none 6 6 5 = CompileOutcome.processAbort := by
  refine ⟨by decide, ?_, ?_⟩
  · exact (compile_functor_errors "XYZZY" none 6 6 0).1 (by decide)
  · exact (compile_functor_errors "OR" none 6 6 5).2 (by decide) (by omega)

/-- C8 counterexample: a known tag with 5 input references hits the
assertion and the process aborts; this is not the per-element error
path the claim describes. -/
theorem compile_functor_argc_abort_cx :
    compile_functor ("AND") none 6 6 5 = CompileOutcome.processAbort ∧
      CompileOutcome.processAbort ≠ CompileOutcome.elementError := by
  decide

/-! ## C5: receives addressed outside a functor's arity -/

/-- C5 (amended): a receive addressed outside a functor's declared
arity is, with one exception, silently ignored — the buffers' vector
and real receives on a non-zero port, the real multiplexer's vector
receive on a port other than the select, and the vector multiplexer's
receive on a port past 2 all return with no state change, nothing sent
and no abort; only the real multiplexer's real receive on a port other
than 0 or 1 hits `assert(0)` and aborts. -/
theorem out_of_arity_recv (port : Nat) (bit : vvp_vector4_t) (x : ℚ)
    (sR : vvp_fun_muxr) (sZ : vvp_fun_muxz) :
    (port ≠ 0 → vvp_fun_buf.recv_vec4 port bit
        = { sentVec4 := [], sentReal := [], aborted := false }) ∧
    (port ≠ 0 → vvp_fun_bufz.recv_vec4 port bit
        = { sentVec4 := [], sentReal := [], aborted := false }) ∧
    (port ≠ 0 → vvp_fun_bufz.recv_real port x
        = { sentVec4 := [], sentReal := [], aborted := false }) ∧
    (port ≠ 2 → vvp_fun_muxr.recv_vec4 sR port bit
        = { state := sR, sentReal := [], aborted := false }) ∧
    (3 ≤ port → vvp_fun_muxz.recv_vec4 sZ port bit
        = { state := sZ, sentVec4 := [], aborted := false }) ∧
    (2 ≤ port → (vvp_fun_muxr.recv_real sR port x).aborted = true) := by
  refine ⟨fun h => by simp [vvp_fun_buf.recv_vec4, h],
    fun h => by simp [vvp_fun_bufz.recv_vec4, h],
    fun h => by simp [vvp_fun_bufz.recv_real, h],
    fun h => by simp [vvp_fun_muxr.recv_vec4, h],
    fun h => ?_, fun h => ?_⟩
  · rcases port with _ | _ | _ | p
    · omega
    · omega
    · omega
    · rfl
  · rcases port with _ | _ | p
    · omega
    · omega
    · rfl

theorem out_of_arity_recv_scenario :
    ((3 : Nat) ≤ 3 ∧
      vvp_fun_muxz.recv_vec4 ⟨⟨[]⟩, ⟨[]⟩, 0⟩ 3 ⟨[BIT4_1]⟩
        = { state := ⟨⟨[]⟩, ⟨[]⟩, 0⟩, sentVec4 := [], aborted := false }) ∧
      ((2 : Nat) ≤ 2 ∧
        (vvp_fun_muxr.recv_real ⟨0, 0, 0⟩ 2 1).aborted = true) := by
  have h3 := out_of_arity_recv 3 ⟨[BIT4_1]⟩ 1 ⟨0, 0, 0⟩ ⟨⟨[]⟩, ⟨[]⟩, 0⟩
  have h2 := out_of_arity_recv 2 ⟨[BIT4_1]⟩ 1 ⟨0, 0, 0⟩ ⟨⟨[]⟩, ⟨[]⟩, 0⟩
  exact ⟨⟨by omega, h3.2.2.2.2.1 (by omega)⟩,
    ⟨by omega, h2.2.2.2.2.2 (by omega)⟩⟩

/-- C5 counterexample: the single-input buffer receiving a vector on
port 1 — outside its arity — neither aborts nor propagates anything;
the call is silently ignored, against the claimed unconditional abort. -/
theorem buf_port1_ignored_cx :
    vvp_fun_buf.recv_vec4 1 ⟨[BIT4_1]⟩
      = { sentVec4 := [], sentReal := [], aborted := false } := by decide

/-! ## C6: the AND gate defers through the scheduler -/

/-- C6: an AND-gate receive of a vector that differs from the port's
latch sends nothing synchronously within the receive call; it only
schedules a single zero-delay evaluation event, so the recomputed
output appears one scheduler hop later. -/
theorem and_recv_defers (s : vvp_fun_and) (port : Nat)
    (bit : vvp_vector4_t)
    (h : (portInput s.input_ port).eeq bit = false) :
    (s.recv_vec4 port bit).sentVec4 = [] ∧
      (s.recv_vec4 port bit).scheduled = [0] := by
  simp [vvp_fun_and.recv_vec4, h]

theorem and_recv_defers_scenario :
    ((portInput (vvp_fun_and.init 1).input_ 0).eeq ⟨[BIT4_1]⟩ = false) ∧
      ((vvp_fun_and.init 1).recv_vec4 0 ⟨[BIT4_1]⟩).sentVec4 = [] ∧
      ((vvp_fun_and.init 1).recv_vec4 0 ⟨[BIT4_1]⟩).scheduled = [0] :=
  ⟨by decide, and_recv_defers (vvp_fun_and.init 1) 0 ⟨[BIT4_1]⟩ (by decide)⟩

/-! ## C7: what the multiplexers propagate on a change -/

/-- Every `muxzSend` sends exactly one vector. -/
theorem muxzSend_sends_one (s : vvp_fun_muxz) :
    ((muxzSend s).sentVec4).length = 1 := by
  rcases s with ⟨a, b, sel⟩
  rcases sel with _ | _ | n <;> rfl

/-- C7 (amended): the vector multiplexer recomputes and sends within
every receive on ports 0-2, and the real multiplexer does so on every
select receive; but a changed real data value is propagated only when
the latched select currently addresses that port — a data change while
the select points elsewhere (or is unknown) is latched silently. -/
theorem mux_propagation (sZ : vvp_fun_muxz) (sR : vvp_fun_muxr)
    (port : Nat) (bit : vvp_vector4_t) (x : ℚ) :
    (port < 3 → (port = 2 → bit.size = 1) →
       ((vvp_fun_muxz.recv_vec4 sZ port bit).sentVec4).length = 1) ∧
    (bit.size = 1 → ((vvp_fun_muxr.recv_vec4 sR 2 bit).sentReal).length = 1) ∧
    (sR.a_ ≠ x → sR.select_ = 0 →
       (vvp_fun_muxr.recv_real sR 0 x).sentReal = [x]) ∧
    (sR.a_ ≠ x → sR.select_ ≠ 0 →
       (vvp_fun_muxr.recv_real sR 0 x).sentReal = []) ∧
    (sR.b_ ≠ x → sR.select_ = 1 →
       (vvp_fun_muxr.recv_real sR 1 x).sentReal = [x]) ∧
    (sR.b_ ≠ x → sR.select_ ≠ 1 →
       (vvp_fun_muxr.recv_real sR 1 x).sentReal = []) := by
  refine ⟨fun hport hb => ?_, fun hb => ?_, fun hch hsel => ?_,
    fun hch hsel => ?_, fun hch hsel => ?_, fun hch hsel => ?_⟩
  · interval_cases port
    · exact muxzSend_sends_one _
    · exact muxzSend_sends_one _
    · have h1 : bit.size = 1 := hb rfl
      cases hv : bit.value 0 <;>
        simp [vvp_fun_muxz.recv_vec4, h1, hv, muxzSend_sends_one]
  · cases hv : bit.value 0 <;>
      simp [vvp_fun_muxr.recv_vec4, hb, hv] <;> split <;> rfl
  · simp [vvp_fun_muxr.recv_real, hch, hsel]
  · simp [vvp_fun_muxr.recv_real, hch, hsel]
  · simp [vvp_fun_muxr.recv_real, hch, hsel]
  · simp [vvp_fun_muxr.recv_real, hch, hsel]

theorem mux_propagation_scenario :
    ((0 : Nat) < 3 ∧
      ((vvp_fun_muxz.recv_vec4 ⟨⟨[]⟩, ⟨[]⟩, 1⟩ 0
          ⟨[BIT4_1]⟩).sentVec4).length = 1) ∧
      ((1 : ℚ) ≠ 2 ∧
        (vvp_fun_muxr.recv_real ⟨1, 1, 0⟩ 0 2).sentReal = [2]) := by
  have h := mux_propagation ⟨⟨[]⟩, ⟨[]⟩, 1⟩ ⟨1, 1, 0⟩ 0 ⟨[BIT4_1]⟩ 2
  refine ⟨⟨by omega, h.1 (by omega) (by omega)⟩, ⟨by norm_num, ?_⟩⟩
  exact h.2.2.1 (by norm_num) rfl

/-- C7 counterexample: the real multiplexer with the select latched
unknown and both data latches holding 1.0 receives the changed value
2.0 on data port A: the value is latched (a genuine change on a data
port) yet nothing is propagated within the receive. -/
theorem muxr_data_change_no_send_cx :
    (vvp_fun_muxr.recv_real ⟨1, 1, 2⟩ 0 2).state.a_ = 2 ∧
      (1 : ℚ) ≠ 2 ∧
      (vvp_fun_muxr.recv_real ⟨1, 1, 2⟩ 0 2).sentReal = [] := by
  refine ⟨?_, by norm_num, ?_⟩ <;> decide

/-! ## C9: what the structural-equality check actually suppresses -/

/-- C9 (amended): the structural-equality suppression works on inputs,
not outputs: the deferred boolean gate drops a receive whose vector
equals the port's latch (state unchanged, nothing sent, nothing
scheduled), and the real multiplexer's data ports drop an unchanged
value; the truth-table functor never suppresses — every receive sends
exactly one vector, even one equal to the last it propagated. -/
theorem redundancy_suppression (sA : vvp_fun_and) (sR : vvp_fun_muxr)
    (sT : table_functor_s) (port : Nat) (bit : vvp_vector4_t) (x : ℚ) :
    ((portInput sA.input_ port).eeq bit = true →
       (sA.recv_vec4 port bit).state = sA ∧
       (sA.recv_vec4 port bit).sentVec4 = [] ∧
       (sA.recv_vec4 port bit).scheduled = []) ∧
    (sR.a_ = x → vvp_fun_muxr.recv_real sR 0 x
        = { state := sR, sentReal := [], aborted := false }) ∧
    (sR.b_ = x → vvp_fun_muxr.recv_real sR 1 x
        = { state := sR, sentReal := [], aborted := false }) ∧
    ((sT.recv_vec4 port bit).sentVec4).length = 1 := by
  refine ⟨fun h => ?_, fun h => by simp [vvp_fun_muxr.recv_real, h],
    fun h => by simp [vvp_fun_muxr.recv_real, h], rfl⟩
  refine ⟨?_, ?_, ?_⟩ <;> simp [vvp_fun_and.recv_vec4, h]

theorem redundancy_suppression_scenario :
    ((portInput (vvp_fun_and.init 1).input_ 0).eeq ⟨[BIT4_X]⟩ = true ∧
      ((vvp_fun_and.init 1).recv_vec4 0 ⟨[BIT4_X]⟩).scheduled = []) ∧
      ((1 : ℚ) = 1 ∧
        vvp_fun_muxr.recv_real ⟨1, 0, 2⟩ 0 1
          = { state := ⟨1, 0, 2⟩, sentReal := [], aborted := false }) := by
  have h := redundancy_suppression (vvp_fun_and.init 1) ⟨1, 0, 2⟩
    tableCxState 0 ⟨[BIT4_X]⟩ 1
  exact ⟨⟨by decide, (h.1 (by decide)).2.2⟩, ⟨rfl, h.2.1 rfl⟩⟩

/-- A table functor whose port-0 latch already holds the one-bit
vector 0 (as it does right after receiving that same vector). -/
def tableRepState : table_functor_s :=
  ⟨fun _ => 9, [⟨[BIT4_0]⟩, ⟨[]⟩, ⟨[]⟩, ⟨[]⟩]⟩

/-- C9 counterexample: the truth-table functor receives the one-bit
vector 0 on port 0 twice in a row; the second receive recomputes an
output structurally equal to the one the first receive propagated, and
still sends it — the redundant propagation is not suppressed. -/
theorem table_resend_equal_output_cx :
    (tableRepState.recv_vec4 0 ⟨[BIT4_0]⟩).sentVec4 = [⟨[BIT4_1]⟩] ∧
      (((tableRepState.recv_vec4 0 ⟨[BIT4_0]⟩).state).recv_vec4 0
          ⟨[BIT4_0]⟩).sentVec4 = [⟨[BIT4_1]⟩] := by decide

/-! ## C10: the width of what the table functor propagates -/

/-- Truncate every latched input of a table functor to width `n`. -/
def table_functor_s.trunc (s : table_functor_s) (n : Nat) : table_functor_s :=
  { s with input_ := s.input_.map (fun v => ⟨v.bits.take n⟩) }

theorem tableContrib_vec_take (v : vvp_vector4_t) (n idx : Nat) (h : idx < n) :
    (if idx < (⟨v.bits.take n⟩ : vvp_vector4_t).size
        then ((⟨v.bits.take n⟩ : vvp_vector4_t).value idx).code else 0)
      = if idx < v.size then (v.value idx).code else 0 := by
  simp only [vvp_vector4_t.size, vvp_vector4_t.value, List.length_take]
  rcases Nat.lt_or_ge idx v.bits.length with hlt | hge
  · rw [if_pos (by omega), if_pos hlt]
    have heq : (v.bits.take n).getD idx BIT4_X = v.bits.getD idx BIT4_X := by
      rw [List.getD_eq_getElem?_getD, List.getD_eq_getElem?_getD,
        List.getElem?_take]
      simp [h]
    rw [heq]
  · rw [if_neg (by omega), if_neg (by omega)]

theorem portInput_trunc_cases (l : List vvp_vector4_t)
    (val : vvp_vector4_t) (port p n : Nat) :
    (portInput ((l.map (fun v => ⟨v.bits.take n⟩)).set port val) p = val ∧
     portInput (l.set port val) p = val) ∨
    portInput ((l.map (fun v => ⟨v.bits.take n⟩)).set port val) p
      = ⟨(portInput (l.set port val) p).bits.take n⟩ := by
  by_cases hp : p = port
  · subst hp
    by_cases hlen : p < l.length
    · left
      constructor <;>
        · unfold portInput
          rw [List.getD_eq_getElem?_getD, List.getElem?_set_self']
          simp [hlen]
    · right
      have h1 : (l.map (fun v : vvp_vector4_t => (⟨v.bits.take n⟩ :
          vvp_vector4_t))).length ≤ p := by
        simp only [List.length_map]; omega
      rw [List.set_eq_of_length_le h1, List.set_eq_of_length_le (by omega)]
      unfold portInput
      rw [List.getD_eq_getElem?_getD, List.getD_eq_getElem?_getD,
        List.getElem?_eq_none h1, List.getElem?_eq_none (by omega)]
      simp
  · right
    unfold portInput
    rw [List.getD_eq_getElem?_getD, List.getD_eq_getElem?_getD,
      List.getElem?_set_ne (Ne.symm hp), List.getElem?_set_ne (Ne.symm hp),
      List.getElem?_map]
    cases hv : l[p]? <;> simp

theorem tableContrib_trunc_set (l : List vvp_vector4_t)
    (val : vvp_vector4_t) (port p idx n : Nat) (h : idx < n) :
    tableContrib ((l.map (fun v => ⟨v.bits.take n⟩)).set port val) p idx
      = tableContrib (l.set port val) p idx := by
  rcases portInput_trunc_cases l val port p n with ⟨h1, h2⟩ | heq
  · unfold tableContrib
    rw [h1, h2]
  · unfold tableContrib
    rw [heq]
    exact tableContrib_vec_take _ n idx h

/-- C10: the vector a truth-table receive propagates has exactly the
width of the vector just received, and bit positions of wider latched
inputs beyond that width contribute nothing: truncating every latched
input to the received width leaves the propagated vector unchanged. -/
theorem table_recv_width (s : table_functor_s) (port : Nat)
    (val : vvp_vector4_t) :
    (∃ res, (s.recv_vec4 port val).sentVec4 = [res] ∧
       res.size = val.size) ∧
    ((s.trunc val.size).recv_vec4 port val).sentVec4
      = (s.recv_vec4 port val).sentVec4 := by
  constructor
  · exact ⟨_, rfl, size_map_range _ _⟩
  · unfold table_functor_s.recv_vec4 table_functor_s.trunc
    dsimp only
    congr 2
    apply List.map_congr_left
    intro idx hidx
    have hn : idx < val.size := List.mem_range.mp hidx
    congr 1
    unfold tableLookup
    rw [tableContrib_trunc_set s.input_ val port 3 idx val.size hn,
      tableContrib_trunc_set s.input_ val port 2 idx val.size hn,
      tableContrib_trunc_set s.input_ val port 1 idx val.size hn,
      tableContrib_trunc_set s.input_ val port 0 idx val.size hn]
